import Mathlib

/-!
Verification of the Forge session store and its HTTP boundary.

The definitions below are a shallow embedding of the TypeScript source:
the session document shape (`AppState`), the document store (`DB`, an
association list of documents plus a reachability flag standing for the
MongoDB connection), the store operations from `lib/store`
(`readState`, `writeState`, `addContribution`, `addSynthesis`,
`addTodos`, `updateRoles`, `updateGoal`, `resetAppState`,
`addChatMessage`, `clearRoleChat`), the chat API route handler, and the
client polling loop from `page.tsx`.  Nondeterministic inputs of the
code (`Date.now()`, `new Date().toISOString()`, the AI service, the
sequence of fetched states) are passed as explicit parameters.
-/

namespace Forge

/-- `Role` from `lib/store`: `{ name, title, id }`. -/
structure Role where
  name : String
  title : String
  id : String
  deriving DecidableEq, Repr

/-- The `'user' | 'ai'` union used for chat message authorship. -/
inductive Author where
  | user
  | ai
  deriving DecidableEq, Repr

/-- `ChatMessage` from `lib/store`: `{ id, author, content, timestamp }`. -/
structure ChatMessage where
  id : String
  author : Author
  content : String
  timestamp : String
  deriving DecidableEq, Repr

/-- `RoleChat` from `lib/store`: `{ roleId, messages, lastBriefingId }`. -/
structure RoleChat where
  roleId : String
  messages : List ChatMessage
  lastBriefingId : Option String
  deriving DecidableEq, Repr

/-- `Contribution` from `lib/store`. -/
structure Contribution where
  role : String
  text : String
  id : String
  timestamp : String
  authorId : String
  authorName : String
  authorTitle : String
  deriving DecidableEq, Repr

/-- `Synthesis` from `lib/store`: `{ id, content, timestamp, sourceContributions }`. -/
structure Synthesis where
  id : String
  content : String
  timestamp : String
  sourceContributions : List String
  deriving DecidableEq, Repr

/-- `TodoItem` from `lib/store`: `{ roleId, briefing }`. -/
structure TodoItem where
  roleId : String
  briefing : String
  deriving DecidableEq, Repr

/-- The `todos` field is a JS object `Record<string, TodoItem[]>`; we embed it
as an association list in key-insertion order, matching JS object semantics. -/
abbrev Todos := List (String × List TodoItem)

/-- `AppState` from `lib/store`: the whole per-session document. -/
structure AppState where
  roles : List Role
  contributions : List Contribution
  syntheses : List Synthesis
  todos : Todos
  roleChats : List RoleChat
  goal : String
  deriving DecidableEq, Repr

/-- Property lookup on a string-keyed association list: the value at the
first occurrence of the key, `none` when the key is absent. -/
def alistGet {α : Type} (l : List (String × α)) (k : String) : Option α :=
  (l.find? (fun p => p.1 == k)).map (fun p => p.2)

/-- Property write on a string-keyed association list: overwrite the value
at an existing key in place, otherwise append the new entry at the end
(JS `obj[k] = v` / an upserting replace). -/
def alistSet {α : Type} (l : List (String × α)) (k : String) (v : α) :
    List (String × α) :=
  match l with
  | [] => [(k, v)]
  | p :: rest => if p.1 == k then (k, v) :: rest else p :: alistSet rest k v

/-- Reading `todos[k]` (JS `undefined` becomes `none`). -/
def todosGet (t : Todos) (k : String) : Option (List TodoItem) :=
  alistGet t k

/-- Writing `todos[k] = v`. -/
def todosSet (t : Todos) (k : String) (v : List TodoItem) : Todos :=
  alistSet t k v

/-- `getInitialState` from `lib/store`. -/
def getInitialState : AppState :=
  { roles := [
      { name := "Konrad", title := "Product Lead", id := "1" },
      { name := "Eike", title := "General Consultant", id := "2" }],
    contributions := [],
    syntheses := [],
    todos := [],
    roleChats := [],
    goal := "Create MVP scope for new product idea" }

/-! ### The document store

One MongoDB collection holding one document per session, keyed by
`forge-${forgeId}`.  `reachable` models whether the connection and the
queries succeed; when it is `false` every operation inside the `try`
blocks of `readState`/`writeState` throws and the `catch` branch runs. -/

/-- The documents of the collection, keyed by `_id`. -/
abbrev Docs := List (String × AppState)

/-- A document store: reachability of MongoDB plus the stored documents. -/
structure DB where
  reachable : Bool
  docs : Docs
  deriving Repr

/-- The `_id` used for a session: `` `forge-${forgeId}` ``. -/
def docKey (forgeId : String) : String := "forge-" ++ forgeId

/-- `collection.findOne({ _id: k })`. -/
def dbGet (db : DB) (k : String) : Option AppState :=
  alistGet db.docs k

/-- `collection.replaceOne({ _id: k }, doc, { upsert: true })` /
`insertOne` on the documents: replace the document at the key, inserting
it when absent. -/
def docsSet (docs : Docs) (k : String) (v : AppState) : Docs :=
  alistSet docs k v

/-- `readState` from `lib/store`: return the stored document; when none
exists, insert and return the initial state (lazy creation); when the
store is unreachable, the `catch` branch returns the initial state
without touching the store. -/
def readState (forgeId : String) (db : DB) : AppState × DB :=
  if db.reachable then
    match dbGet db (docKey forgeId) with
    | some state => (state, db)
    | none =>
        (getInitialState,
         { db with docs := docsSet db.docs (docKey forgeId) getInitialState })
  else
    (getInitialState, db)

/-- `writeState` from `lib/store`: upsert the whole document; when the
store is unreachable the `catch` branch only logs, so the mutation is
dropped. -/
def writeState (forgeId : String) (state : AppState) (db : DB) : DB :=
  if db.reachable then
    { db with docs := docsSet db.docs (docKey forgeId) state }
  else
    db

/-- `getAppState` from `lib/store`. -/
def getAppState (forgeId : String) (db : DB) : AppState × DB :=
  readState forgeId db

/-- `resetAppState` from `lib/store`: write the initial state and return it. -/
def resetAppState (forgeId : String) (db : DB) : AppState × DB :=
  (getInitialState, writeState forgeId getInitialState db)

/-! ### Mutating operations

Each store operation is `readState`, a pure transformation of the read
state, then `writeState`.  We factor the transformation into a
`...State` function (on `AppState`) and lift it to the store.  `newId`
and `ts` stand for `Date.now().toString()` and
`new Date().toISOString()`. -/

/-- The `Contribution` object built inside `addContribution` once the
author role has been resolved. -/
def mkContribution (author : Role) (authorId text newId ts : String) : Contribution :=
  { id := newId,
    timestamp := ts,
    authorId := authorId,
    authorName := author.name,
    authorTitle := author.title,
    text := text,
    role := author.name ++ " - " ++ author.title }

/-- `addContribution` on the read state: resolve `authorId` against
`roles` (`roles.find(r => r.id === authorId)`), throw `"Role not found"`
when absent, otherwise push the new contribution. -/
def addContributionState (s : AppState) (authorId text newId ts : String) :
    Except String AppState :=
  match s.roles.find? (fun r => r.id == authorId) with
  | none => .error "Role not found"
  | some author =>
      .ok { s with contributions :=
              s.contributions ++ [mkContribution author authorId text newId ts] }

/-- `addContribution` from `lib/store`, lifted to the store.  On the
error path the exception propagates after `readState` already ran, so
the store from the read is returned alongside the error. -/
def addContribution (forgeId authorId text newId ts : String) (db : DB) :
    Except String AppState × DB :=
  let rs := readState forgeId db
  match addContributionState rs.1 authorId text newId ts with
  | .error e => (.error e, rs.2)
  | .ok s' => (.ok s', writeState forgeId s' rs.2)

/-- `addSynthesis` on the read state: `appState.syntheses.push(synthesis)`. -/
def addSynthesisState (s : AppState) (syn : Synthesis) : AppState :=
  { s with syntheses := s.syntheses ++ [syn] }

/-- `addSynthesis` from `lib/store`. -/
def addSynthesis (forgeId : String) (syn : Synthesis) (db : DB) : AppState × DB :=
  let rs := readState forgeId db
  let s' := addSynthesisState rs.1 syn
  (s', writeState forgeId s' rs.2)

/-- `addTodos` on the read state: `appState.todos[synthesisId] = briefings`
(the `!appState.todos` guard is vacuous here since `todos` is always
present in the embedding). -/
def addTodosState (s : AppState) (synthesisId : String) (briefings : List TodoItem) :
    AppState :=
  { s with todos := todosSet s.todos synthesisId briefings }

/-- `addTodos` from `lib/store`. -/
def addTodos (forgeId synthesisId : String) (briefings : List TodoItem) (db : DB) :
    AppState × DB :=
  let rs := readState forgeId db
  let s' := addTodosState rs.1 synthesisId briefings
  (s', writeState forgeId s' rs.2)

/-- `updateRoles` on the read state: `appState.roles = roles`. -/
def updateRolesState (s : AppState) (roles : List Role) : AppState :=
  { s with roles := roles }

/-- `updateRoles` from `lib/store`. -/
def updateRoles (forgeId : String) (roles : List Role) (db : DB) : AppState × DB :=
  let rs := readState forgeId db
  let s' := updateRolesState rs.1 roles
  (s', writeState forgeId s' rs.2)

/-- `updateGoal` on the read state: `appState.goal = goal`. -/
def updateGoalState (s : AppState) (goal : String) : AppState :=
  { s with goal := goal }

/-- `updateGoal` from `lib/store`. -/
def updateGoal (forgeId goal : String) (db : DB) : AppState × DB :=
  let rs := readState forgeId db
  let s' := updateGoalState rs.1 goal
  (s', writeState forgeId s' rs.2)

/-- Replace the first role chat whose `roleId` matches (the object that
`roleChats.find` returned and that the code mutates in place). -/
def setFirstChat (chats : List RoleChat) (rid : String) (rc : RoleChat) :
    List RoleChat :=
  match chats with
  | [] => []
  | c :: rest => if c.roleId == rid then rc :: rest else c :: setFirstChat rest rid rc

/-- `addChatMessage` on the read state: find or create the role chat,
push the new message, and update `lastBriefingId` when a briefing id was
passed.  Returns the new state together with the affected role chat. -/
def addChatMessageState (s : AppState) (roleId message : String) (author : Author)
    (briefingId : Option String) (newId ts : String) : AppState × RoleChat :=
  let newMessage : ChatMessage :=
    { id := newId, author := author, content := message, timestamp := ts }
  match s.roleChats.find? (fun rc => rc.roleId == roleId) with
  | some rc =>
      let rc' : RoleChat :=
        { rc with
          messages := rc.messages ++ [newMessage],
          lastBriefingId :=
            match briefingId with
            | some b => some b
            | none => rc.lastBriefingId }
      ({ s with roleChats := setFirstChat s.roleChats roleId rc' }, rc')
  | none =>
      let rc' : RoleChat :=
        { roleId := roleId, messages := [newMessage], lastBriefingId := briefingId }
      ({ s with roleChats := s.roleChats ++ [rc'] }, rc')

/-- `addChatMessage` from `lib/store`. -/
def addChatMessage (forgeId roleId message : String) (author : Author)
    (briefingId : Option String) (newId ts : String) (db : DB) :
    (AppState × RoleChat) × DB :=
  let rs := readState forgeId db
  let r := addChatMessageState rs.1 roleId message author briefingId newId ts
  (r, writeState forgeId r.1 rs.2)

/-- Remove the first role chat whose `roleId` matches
(`findIndex` + `splice(chatIndex, 1)`). -/
def removeFirstChat (chats : List RoleChat) (rid : String) : List RoleChat :=
  match chats with
  | [] => []
  | c :: rest => if c.roleId == rid then rest else c :: removeFirstChat rest rid

/-- `clearRoleChat` on the read state. -/
def clearRoleChatState (s : AppState) (roleId : String) : AppState :=
  { s with roleChats := removeFirstChat s.roleChats roleId }

/-- `clearRoleChat` from `lib/store`. -/
def clearRoleChat (forgeId roleId : String) (db : DB) : AppState × DB :=
  let rs := readState forgeId db
  let s' := clearRoleChatState rs.1 roleId
  (s', writeState forgeId s' rs.2)

/-! ### The chat API route (`app/api/chat/route.ts`)

The handler destructures `{ forgeId, roleId, message, isQuestion = false }`
from the JSON body (the default applies exactly when the property is
absent/undefined), validates the three string fields with JS truthiness,
forwards `{forge_id, role_id, message, is_question}` to the AI service,
and echoes `isQuestion` in its success response.  The AI service is a
parameter. -/

/-- The JSON body of a `POST /api/chat` request; `none` models an absent
property. -/
structure ChatRequestBody where
  forgeId : Option String
  roleId : Option String
  message : Option String
  isQuestion : Option Bool
  deriving DecidableEq, Repr

/-- JS truthiness of a possibly-absent string: `!x` holds when the property
is absent or the empty string. -/
def truthyStr : Option String → Bool
  | none => false
  | some s => !(s == "")

/-- The body forwarded to the FastAPI service. -/
structure ChatForwardBody where
  forge_id : String
  role_id : String
  message : String
  is_question : Bool
  deriving DecidableEq, Repr

/-- The AI service's reply as seen by the route: `ok` is `response.ok`,
`status` its HTTP status, and `message`/`ai_response` the JSON fields
read on success. -/
structure AIChatResponse where
  ok : Bool
  status : Nat
  message : String
  ai_response : String
  deriving DecidableEq, Repr

/-- The success JSON produced by the route. -/
structure ChatRouteResponse where
  success : Bool
  message : String
  aiResponse : String
  isQuestion : Bool
  deriving DecidableEq, Repr

/-- The route's outcome: a 400 validation error, a forwarded upstream
error status, or the success JSON. -/
inductive ChatRouteResult where
  | badRequest
  | upstreamError (status : Nat)
  | ok (resp : ChatRouteResponse)
  deriving DecidableEq, Repr

/-- `POST` of `app/api/chat/route.ts`.  The first component is the body
sent to the AI service (`none` when validation failed and no call was
made). -/
def chatPOST (body : ChatRequestBody) (service : ChatForwardBody → AIChatResponse) :
    Option ChatForwardBody × ChatRouteResult :=
  let isQuestion := body.isQuestion.getD false
  if truthyStr body.forgeId && truthyStr body.roleId && truthyStr body.message then
    let fwd : ChatForwardBody :=
      { forge_id := body.forgeId.getD "",
        role_id := body.roleId.getD "",
        message := body.message.getD "",
        is_question := isQuestion }
    let resp := service fwd
    if resp.ok then
      (some fwd,
       .ok { success := true, message := resp.message,
             aiResponse := resp.ai_response, isQuestion := isQuestion })
    else
      (some fwd, .upstreamError resp.status)
  else
    (none, .badRequest)

/-! ### The client poller (`pollForCompletion` in `app/page.tsx`)

After `POST /api/synthesize` the page polls `GET /api/state` until the
target synthesis id appears together with a non-empty todos entry for
it, or `maxAttempts` polls have gone by.  `fetches n` is the state
returned by the `n`-th fetch (`none` when the fetch threw or was not
`ok`). -/

/-- `setTimeout(poll, 3000)`: the fixed poll interval in milliseconds. -/
def pollIntervalMs : Nat := 3000

/-- `const maxAttempts = 20`. -/
def maxAttempts : Nat := 20

/-- The completion check run on one fetched state: the target synthesis
must be present in `syntheses` and `todos[targetSynthesisId]` must be a
present, non-empty list. -/
def pollCheck (targetSynthesisId : String) (state : AppState) :
    Option (Synthesis × List TodoItem) :=
  match state.syntheses.find? (fun s => s.id == targetSynthesisId) with
  | none => none
  | some syn =>
      match todosGet state.todos targetSynthesisId with
      | none => none
      | some ts => if 0 < ts.length then some (syn, ts) else none

/-- What the poll loop ends in: completion with the observed artifacts,
or the silent timeout path (`console.log` + stop; no error surfaced). -/
inductive PollOutcome where
  | completed (syn : Synthesis) (todos : List TodoItem)
  | timedOut
  deriving DecidableEq, Repr

/-- The recursive `poll` closure: stop at the attempt bound, otherwise
fetch, stop on completion, else increment `attempts` and re-arm. -/
def poll (targetSynthesisId : String) (fetches : Nat → Option AppState)
    (attempts : Nat) : PollOutcome :=
  if _h : maxAttempts ≤ attempts then .timedOut
  else
    match (fetches attempts).bind (pollCheck targetSynthesisId) with
    | some r => .completed r.1 r.2
    | none => poll targetSynthesisId fetches (attempts + 1)
  termination_by maxAttempts - attempts
  decreasing_by simp_wf; omega

/-- `pollForCompletion`: start the loop at `attempts = 0`. -/
def pollForCompletion (targetSynthesisId : String)
    (fetches : Nat → Option AppState) : PollOutcome :=
  poll targetSynthesisId fetches 0

/-! ### The store operations as a single alphabet

For stating preservation across the mutating operations we collect them
in one inductive alphabet and one application function over the session
state (a thrown `addContribution` mutates nothing). -/

/-- One mutating store operation (the whole-session reset excluded). -/
inductive Op where
  | addContribution (authorId text newId ts : String)
  | addSynthesis (syn : Synthesis)
  | addTodos (synthesisId : String) (briefings : List TodoItem)
  | addChatMessage (roleId message : String) (author : Author)
      (briefingId : Option String) (newId ts : String)
  | updateRoles (roles : List Role)
  | updateGoal (goal : String)
  | clearRoleChat (roleId : String)
  deriving DecidableEq, Repr

/-- Apply one operation to a session state. -/
def applyOp (s : AppState) : Op → AppState
  | .addContribution a t i ts =>
      match addContributionState s a t i ts with
      | .ok s' => s'
      | .error _ => s
  | .addSynthesis syn => addSynthesisState s syn
  | .addTodos sid b => addTodosState s sid b
  | .addChatMessage rid msg au bid i ts =>
      (addChatMessageState s rid msg au bid i ts).1
  | .updateRoles rs => updateRolesState s rs
  | .updateGoal g => updateGoalState s g
  | .clearRoleChat rid => clearRoleChatState s rid

/-- A chat message is present in a session when some role chat holds it. -/
def msgInState (m : ChatMessage) (s : AppState) : Prop :=
  ∃ rc ∈ s.roleChats, m ∈ rc.messages

instance (m : ChatMessage) (s : AppState) : Decidable (msgInState m s) :=
  inferInstanceAs (Decidable (∃ rc ∈ s.roleChats, m ∈ rc.messages))

/-! ## Association-list lemmas -/

theorem alistGet_alistSet_self {α : Type} (l : List (String × α)) (k : String) (v : α) :
    alistGet (alistSet l k v) k = some v := by
  induction l with
  | nil => simp [alistGet, alistSet, List.find?]
  | cons p rest ih =>
      by_cases hp : p.1 = k
      · have hb : (p.1 == k) = true := beq_iff_eq.mpr hp
        simp [alistGet, alistSet, List.find?, hb]
      · have hb : (p.1 == k) = false := beq_eq_false_iff_ne.mpr hp
        simp only [alistSet, hb, Bool.false_eq_true, if_false]
        simpa [alistGet, List.find?, hb] using ih

theorem alistGet_alistSet_ne {α : Type} (l : List (String × α)) (k k' : String) (v : α)
    (h : k' ≠ k) : alistGet (alistSet l k v) k' = alistGet l k' := by
  have hkk : (k == k') = false := beq_eq_false_iff_ne.mpr (Ne.symm h)
  induction l with
  | nil => simp [alistGet, alistSet, List.find?, hkk]
  | cons p rest ih =>
      by_cases hp : p.1 = k
      · have hb : (p.1 == k) = true := beq_iff_eq.mpr hp
        have hb' : (p.1 == k') = false := by rw [hp]; exact hkk
        simp [alistGet, alistSet, List.find?, hb, hb', hkk]
      · have hb : (p.1 == k) = false := beq_eq_false_iff_ne.mpr hp
        simp only [alistSet, hb, Bool.false_eq_true, if_false]
        by_cases hp' : p.1 = k'
        · have hb' : (p.1 == k') = true := beq_iff_eq.mpr hp'
          simp [alistGet, List.find?, hb']
        · have hb' : (p.1 == k') = false := beq_eq_false_iff_ne.mpr hp'
          simpa [alistGet, List.find?, hb'] using ih

theorem alistSet_alistSet_self {α : Type} (l : List (String × α)) (k : String) (v w : α) :
    alistSet (alistSet l k v) k w = alistSet l k w := by
  induction l with
  | nil => simp [alistSet]
  | cons p rest ih =>
      by_cases hp : p.1 = k
      · have hb : (p.1 == k) = true := beq_iff_eq.mpr hp
        simp [alistSet, hb]
      · have hb : (p.1 == k) = false := beq_eq_false_iff_ne.mpr hp
        simp [alistSet, hb, ih]

/-! ## Claim theorems -/

/-- C1: for every `forgeId`, `resetAppState` persists (when the store is
reachable) and returns the initial session state, whose roles are exactly
the seeds Konrad/Product Lead and Eike/General Consultant with empty
contributions, syntheses and todos; and running `resetAppState` twice
yields the same resulting state (store and returned value) as once. -/
theorem resetAppState_seeds_and_idempotent (forgeId : String) (db : DB)
    (h : db.reachable = true) :
    (resetAppState forgeId db).1 = getInitialState ∧
    getInitialState.roles =
      [{ name := "Konrad", title := "Product Lead", id := "1" },
       { name := "Eike", title := "General Consultant", id := "2" }] ∧
    getInitialState.contributions = [] ∧
    getInitialState.syntheses = [] ∧
    getInitialState.todos = [] ∧
    dbGet (resetAppState forgeId db).2 (docKey forgeId) = some getInitialState ∧
    resetAppState forgeId (resetAppState forgeId db).2 = resetAppState forgeId db := by
  refine ⟨rfl, rfl, rfl, rfl, rfl, ?_, ?_⟩
  · simp [resetAppState, writeState, dbGet, h, docsSet, alistGet_alistSet_self]
  · simp [resetAppState, writeState, h, docsSet, alistSet_alistSet_self]

/-- Witness for C1 at a concrete store. -/
theorem resetAppState_seeds_and_idempotent_witness :
    (DB.mk true []).reachable = true ∧
    resetAppState "demo" (resetAppState "demo" (DB.mk true [])).2 =
      resetAppState "demo" (DB.mk true []) :=
  ⟨rfl, (resetAppState_seeds_and_idempotent "demo" (DB.mk true []) rfl).2.2.2.2.2.2⟩

/-- C4: when the document store is unreachable, `readState` (and
`getAppState`) return the in-memory default initial session without
propagating the error and without touching the store, and `writeState`
drops the mutation, leaving the store unchanged and throwing nothing. -/
theorem unreachable_store_degrades (forgeId : String) (s : AppState) (db : DB)
    (h : db.reachable = false) :
    readState forgeId db = (getInitialState, db) ∧
    getAppState forgeId db = (getInitialState, db) ∧
    writeState forgeId s db = db := by
  refine ⟨?_, ?_, ?_⟩ <;> simp [readState, getAppState, writeState, h]

/-- Witness for C4 at a concrete unreachable store. -/
theorem unreachable_store_degrades_witness :
    (DB.mk false [("forge-x", getInitialState)]).reachable = false ∧
    writeState "x" getInitialState (DB.mk false [("forge-x", getInitialState)]) =
      DB.mk false [("forge-x", getInitialState)] :=
  ⟨rfl,
   (unreachable_store_degrades "x" getInitialState
      (DB.mk false [("forge-x", getInitialState)]) rfl).2.2⟩

/-- C5: for a reachable store holding no document for `forgeId`, the
first read lazily creates and returns the default session (seed roles,
empty contributions/syntheses/todos/roleChats, default goal), touches no
other document, and a subsequent read returns that same state from the
same store. -/
theorem readState_lazy_creation (forgeId : String) (db : DB)
    (hr : db.reachable = true) (habs : dbGet db (docKey forgeId) = none) :
    (readState forgeId db).1 =
      { roles := [
          { name := "Konrad", title := "Product Lead", id := "1" },
          { name := "Eike", title := "General Consultant", id := "2" }],
        contributions := [],
        syntheses := [],
        todos := [],
        roleChats := [],
        goal := "Create MVP scope for new product idea" } ∧
    dbGet (readState forgeId db).2 (docKey forgeId) = some (readState forgeId db).1 ∧
    (∀ k, k ≠ docKey forgeId → dbGet (readState forgeId db).2 k = dbGet db k) ∧
    readState forgeId (readState forgeId db).2 =
      ((readState forgeId db).1, (readState forgeId db).2) := by
  have hread : readState forgeId db =
      (getInitialState,
       { db with docs := docsSet db.docs (docKey forgeId) getInitialState }) := by
    simp [readState, hr, habs]
  refine ⟨by rw [hread]; rfl, ?_, ?_, ?_⟩
  · rw [hread]
    simp [dbGet, docsSet, alistGet_alistSet_self]
  · intro k hk
    rw [hread]
    simp [dbGet, docsSet, alistGet_alistSet_ne _ _ _ _ hk]
  · rw [hread]
    simp [readState, hr, dbGet, docsSet, alistGet_alistSet_self]

/-- Witness for C5 at a concrete empty reachable store. -/
theorem readState_lazy_creation_witness :
    (DB.mk true []).reachable = true ∧
    dbGet (DB.mk true []) (docKey "demo") = none ∧
    readState "demo" (readState "demo" (DB.mk true [])).2 =
      ((readState "demo" (DB.mk true [])).1, (readState "demo" (DB.mk true [])).2) :=
  ⟨rfl, rfl, (readState_lazy_creation "demo" (DB.mk true []) rfl rfl).2.2.2⟩

/-- A read changes each stored document either not at all, or by lazily
creating the initial state where no document existed. -/
theorem readState_docs_cases (forgeId : String) (db : DB) (k : String) :
    dbGet (readState forgeId db).2 k = dbGet db k ∨
    (dbGet db k = none ∧ dbGet (readState forgeId db).2 k = some getInitialState) := by
  by_cases hr : db.reachable = true
  · cases hdoc : dbGet db (docKey forgeId) with
    | some s => left; simp [readState, hr, hdoc]
    | none =>
        have hdoc' : alistGet db.docs (docKey forgeId) = none := hdoc
        by_cases hk : k = docKey forgeId
        · subst hk
          right
          exact ⟨hdoc,
            by simp [readState, hr, hdoc', dbGet, docsSet, alistGet_alistSet_self]⟩
        · left
          simp [readState, hr, hdoc', dbGet, docsSet, alistGet_alistSet_ne _ _ _ _ hk]
  · left
    simp [readState, hr]

/-- C2: `addContribution` throws (and persists no new contribution)
exactly when `authorId` matches no role id of the read session; when a
role matches, the contribution is created from it and appended. -/
theorem addContribution_role_check (forgeId authorId text newId ts : String) (db : DB) :
    ((addContribution forgeId authorId text newId ts db).1 = .error "Role not found" ↔
      (readState forgeId db).1.roles.find? (fun r => r.id == authorId) = none) ∧
    (∀ author,
      (readState forgeId db).1.roles.find? (fun r => r.id == authorId) = some author →
      (addContribution forgeId authorId text newId ts db).1 =
        .ok { (readState forgeId db).1 with contributions :=
                (readState forgeId db).1.contributions ++
                  [mkContribution author authorId text newId ts] }) ∧
    ((readState forgeId db).1.roles.find? (fun r => r.id == authorId) = none →
      ∀ k, dbGet (addContribution forgeId authorId text newId ts db).2 k = dbGet db k ∨
        (dbGet db k = none ∧
         dbGet (addContribution forgeId authorId text newId ts db).2 k =
           some getInitialState)) := by
  refine ⟨?_, ?_, ?_⟩
  · constructor
    · intro he
      cases hfind : (readState forgeId db).1.roles.find? (fun r => r.id == authorId) with
      | none => rfl
      | some author =>
          exfalso
          have : (addContribution forgeId authorId text newId ts db).1 =
              .ok { (readState forgeId db).1 with contributions :=
                      (readState forgeId db).1.contributions ++
                        [mkContribution author authorId text newId ts] } := by
            simp [addContribution, addContributionState, hfind]
          rw [this] at he
          exact Except.noConfusion he
    · intro hnone
      simp [addContribution, addContributionState, hnone]
  · intro author hfind
    simp [addContribution, addContributionState, hfind]
  · intro hnone k
    have : (addContribution forgeId authorId text newId ts db).2 =
        (readState forgeId db).2 := by
      simp [addContribution, addContributionState, hnone]
    rw [this]
    exact readState_docs_cases forgeId db k

/-- Witness for C2: on an empty reachable store, an unknown author id
makes `addContribution` throw `"Role not found"`. -/
theorem addContribution_role_check_witness :
    (addContribution "demo" "99" "hi" "100" "t0" (DB.mk true [])).1 =
      .error "Role not found" :=
  (addContribution_role_check "demo" "99" "hi" "100" "t0" (DB.mk true [])).1.mpr rfl

/-- C7: a successful `addContribution` appends exactly one contribution
at the end of the previous list and leaves roles, syntheses, todos,
role chats and goal unchanged. -/
theorem addContributionState_frame (s : AppState) (authorId text newId ts : String)
    (s' : AppState) (h : addContributionState s authorId text newId ts = .ok s') :
    (∃ c, s'.contributions = s.contributions ++ [c]) ∧
    s'.roles = s.roles ∧
    s'.syntheses = s.syntheses ∧
    s'.todos = s.todos ∧
    s'.roleChats = s.roleChats ∧
    s'.goal = s.goal := by
  cases hfind : s.roles.find? (fun r => r.id == authorId) with
  | none => rw [addContributionState, hfind] at h; exact Except.noConfusion h
  | some author =>
      rw [addContributionState, hfind] at h
      cases h
      exact ⟨⟨mkContribution author authorId text newId ts, rfl⟩, rfl, rfl, rfl, rfl, rfl⟩

/-- Witness for C7 at the initial state and the seed role id `"1"`. -/
theorem addContributionState_frame_witness :
    (∃ c, ({ getInitialState with contributions :=
        [mkContribution { name := "Konrad", title := "Product Lead", id := "1" }
          "1" "hello" "100" "t0"] } : AppState).contributions =
        getInitialState.contributions ++ [c]) ∧
    ({ getInitialState with contributions :=
        [mkContribution { name := "Konrad", title := "Product Lead", id := "1" }
          "1" "hello" "100" "t0"] } : AppState).goal = getInitialState.goal :=
  ⟨(addContributionState_frame getInitialState "1" "hello" "100" "t0"
      { getInitialState with contributions :=
          [mkContribution { name := "Konrad", title := "Product Lead", id := "1" }
            "1" "hello" "100" "t0"] } (by rfl)).1,
   (addContributionState_frame getInitialState "1" "hello" "100" "t0"
      { getInitialState with contributions :=
          [mkContribution { name := "Konrad", title := "Product Lead", id := "1" }
            "1" "hello" "100" "t0"] } (by rfl)).2.2.2.2.2⟩

/-- C8: `addContribution` snapshots the resolved role's name and title
into `authorName`, `authorTitle` and `role` ("name - title"), and
`updateRoles` replaces only the `roles` field, leaving every stored
contribution (with its snapshots) untouched. -/
theorem contribution_snapshot_updateRoles_frame (s : AppState)
    (authorId text newId ts : String) (author : Role)
    (h : s.roles.find? (fun r => r.id == authorId) = some author) :
    addContributionState s authorId text newId ts =
      .ok { s with contributions := s.contributions ++
              [{ role := author.name ++ " - " ++ author.title,
                 text := text,
                 id := newId,
                 timestamp := ts,
                 authorId := authorId,
                 authorName := author.name,
                 authorTitle := author.title }] } ∧
    (∀ roles',
      (updateRolesState s roles').roles = roles' ∧
      (updateRolesState s roles').contributions = s.contributions ∧
      (updateRolesState s roles').syntheses = s.syntheses ∧
      (updateRolesState s roles').todos = s.todos ∧
      (updateRolesState s roles').roleChats = s.roleChats ∧
      (updateRolesState s roles').goal = s.goal) := by
  refine ⟨?_, fun roles' => ⟨rfl, rfl, rfl, rfl, rfl, rfl⟩⟩
  rw [addContributionState, h]
  rfl

/-- Witness for C8 resolving the seed role `"2"` (Eike) and then
replacing the roles list with an empty roster. -/
theorem contribution_snapshot_updateRoles_frame_witness :
    addContributionState getInitialState "2" "txt" "101" "t1" =
      .ok { getInitialState with contributions :=
              [{ role := "Eike" ++ " - " ++ "General Consultant",
                 text := "txt",
                 id := "101",
                 timestamp := "t1",
                 authorId := "2",
                 authorName := "Eike",
                 authorTitle := "General Consultant" }] } ∧
    (updateRolesState getInitialState []).contributions =
      getInitialState.contributions :=
  ⟨(contribution_snapshot_updateRoles_frame getInitialState "2" "txt" "101" "t1"
      { name := "Eike", title := "General Consultant", id := "2" } (by rfl)).1,
   ((contribution_snapshot_updateRoles_frame getInitialState "2" "txt" "101" "t1"
      { name := "Eike", title := "General Consultant", id := "2" } (by rfl)).2 []).2.1⟩

/-- C9: `addTodos` stores exactly the given briefing list under the
synthesis id, replacing any previous entry for that key, and leaves all
other todo keys and all other session fields unchanged. -/
theorem addTodosState_replaces (s : AppState) (synthesisId : String)
    (briefings : List TodoItem) :
    todosGet (addTodosState s synthesisId briefings).todos synthesisId = some briefings ∧
    (∀ k, k ≠ synthesisId →
      todosGet (addTodosState s synthesisId briefings).todos k = todosGet s.todos k) ∧
    (addTodosState s synthesisId briefings).roles = s.roles ∧
    (addTodosState s synthesisId briefings).contributions = s.contributions ∧
    (addTodosState s synthesisId briefings).syntheses = s.syntheses ∧
    (addTodosState s synthesisId briefings).roleChats = s.roleChats ∧
    (addTodosState s synthesisId briefings).goal = s.goal := by
  refine ⟨?_, ?_, rfl, rfl, rfl, rfl, rfl⟩
  · simp [addTodosState, todosGet, todosSet, alistGet_alistSet_self]
  · intro k hk
    simp [addTodosState, todosGet, todosSet, alistGet_alistSet_ne _ _ _ _ hk]

/-- Witness for C9: overwriting an existing briefing set under `"syn1"`
replaces it and leaves the set under `"syn2"` alone. -/
theorem addTodosState_replaces_witness :
    todosGet (addTodosState
        { getInitialState with todos :=
            [("syn1", [{ roleId := "1", briefing := "old" }]),
             ("syn2", [{ roleId := "2", briefing := "keep" }])] }
        "syn1" [{ roleId := "1", briefing := "new" }]).todos "syn1" =
      some [{ roleId := "1", briefing := "new" }] ∧
    todosGet (addTodosState
        { getInitialState with todos :=
            [("syn1", [{ roleId := "1", briefing := "old" }]),
             ("syn2", [{ roleId := "2", briefing := "keep" }])] }
        "syn1" [{ roleId := "1", briefing := "new" }]).todos "syn2" =
      todosGet ({ getInitialState with todos :=
            [("syn1", [{ roleId := "1", briefing := "old" }]),
             ("syn2", [{ roleId := "2", briefing := "keep" }])] } : AppState).todos "syn2" :=
  ⟨(addTodosState_replaces
      { getInitialState with todos :=
          [("syn1", [{ roleId := "1", briefing := "old" }]),
           ("syn2", [{ roleId := "2", briefing := "keep" }])] }
      "syn1" [{ roleId := "1", briefing := "new" }]).1,
   (addTodosState_replaces
      { getInitialState with todos :=
          [("syn1", [{ roleId := "1", briefing := "old" }]),
           ("syn2", [{ roleId := "2", briefing := "keep" }])] }
      "syn1" [{ roleId := "1", briefing := "new" }]).2.1 "syn2" (by decide)⟩

/-- Replacing the first matching role chat by one holding at least the
same messages preserves message presence. -/
theorem setFirstChat_preserves_msg (chats : List RoleChat) (rid : String)
    (rc rc' : RoleChat)
    (hfind : chats.find? (fun c => c.roleId == rid) = some rc)
    (hsub : ∀ m ∈ rc.messages, m ∈ rc'.messages)
    (m : ChatMessage) (hm : ∃ c ∈ chats, m ∈ c.messages) :
    ∃ c ∈ setFirstChat chats rid rc', m ∈ c.messages := by
  induction chats with
  | nil => simp [List.find?] at hfind
  | cons c rest ih =>
      by_cases hc : c.roleId = rid
      · have hb : (c.roleId == rid) = true := beq_iff_eq.mpr hc
        have hcrc : c = rc := by simpa [List.find?, hb] using hfind
        obtain ⟨c0, hc0, hmc0⟩ := hm
        rcases List.mem_cons.mp hc0 with h0 | h0
        · subst h0
          exact ⟨rc', by simp [setFirstChat, hb], hsub m (hcrc ▸ hmc0)⟩
        · exact ⟨c0, by simp [setFirstChat, hb, h0], hmc0⟩
      · have hb : (c.roleId == rid) = false := beq_eq_false_iff_ne.mpr hc
        have hfind' : rest.find? (fun c => c.roleId == rid) = some rc := by
          simpa [List.find?, hb] using hfind
        obtain ⟨c0, hc0, hmc0⟩ := hm
        rcases List.mem_cons.mp hc0 with h0 | h0
        · subst h0
          exact ⟨c0, by simp [setFirstChat, hb], hmc0⟩
        · obtain ⟨c1, hc1, hmc1⟩ := ih hfind' ⟨c0, h0, hmc0⟩
          exact ⟨c1, by simp [setFirstChat, hb, hc1], hmc1⟩

/-- C3 counterexample: `clearRoleChat` is not the whole-session reset,
yet it deletes the chat messages of the targeted role, so a ChatMessage
present before the operation is gone afterwards. -/
theorem clearRoleChat_deletes_chat_messages :
    msgInState { id := "m1", author := .user, content := "hi", timestamp := "t" }
      { getInitialState with roleChats :=
          [{ roleId := "1",
             messages := [{ id := "m1", author := .user, content := "hi", timestamp := "t" }],
             lastBriefingId := none }] } ∧
    ¬ msgInState { id := "m1", author := .user, content := "hi", timestamp := "t" }
      (applyOp
        { getInitialState with roleChats :=
            [{ roleId := "1",
               messages := [{ id := "m1", author := .user, content := "hi", timestamp := "t" }],
               lastBriefingId := none }] }
        (.clearRoleChat "1")) := by
  constructor
  · exact ⟨{ roleId := "1",
             messages := [{ id := "m1", author := .user, content := "hi", timestamp := "t" }],
             lastBriefingId := none }, by simp, by simp⟩
  · intro h
    obtain ⟨c, hc, hm⟩ := h
    simp [applyOp, clearRoleChatState, removeFirstChat] at hc

/-- C3 amended: every Contribution and Synthesis present before any of
the store operations is still present afterwards; the todos (briefing)
mapping is unchanged by every operation other than `addTodos` (which may
replace the entry under its synthesis id); and every ChatMessage present
before any operation other than `clearRoleChat` (which removes the
targeted role's chat and its messages) is still present afterwards. -/
theorem op_preserves_artifacts (s : AppState) (op : Op) :
    (∀ c ∈ s.contributions, c ∈ (applyOp s op).contributions) ∧
    (∀ syn ∈ s.syntheses, syn ∈ (applyOp s op).syntheses) ∧
    ((∀ sid b, op ≠ .addTodos sid b) → (applyOp s op).todos = s.todos) ∧
    ((∀ rid, op ≠ .clearRoleChat rid) →
      ∀ m, msgInState m s → msgInState m (applyOp s op)) := by
  cases op with
  | addContribution a t i ts =>
      cases hfind : s.roles.find? (fun r => r.id == a) with
      | none =>
          have h : applyOp s (.addContribution a t i ts) = s := by
            simp [applyOp, addContributionState, hfind]
          rw [h]
          exact ⟨fun c hc => hc, fun syn hs => hs, fun _ => rfl, fun _ m hm => hm⟩
      | some author =>
          have h : applyOp s (.addContribution a t i ts) =
              { s with contributions :=
                  s.contributions ++ [mkContribution author a t i ts] } := by
            simp [applyOp, addContributionState, hfind]
          rw [h]
          exact ⟨fun c hc => List.mem_append_left _ hc, fun syn hs => hs,
                 fun _ => rfl, fun _ m hm => hm⟩
  | addSynthesis syn =>
      exact ⟨fun c hc => hc, fun s0 hs => List.mem_append_left _ hs,
             fun _ => rfl, fun _ m hm => hm⟩
  | addTodos sid b =>
      exact ⟨fun c hc => hc, fun s0 hs => hs,
             fun hne => (hne sid b rfl).elim, fun _ m hm => hm⟩
  | addChatMessage rid msg au bid i ts =>
      cases hf : s.roleChats.find? (fun rc => rc.roleId == rid) with
      | some rc =>
          have hcontrib :
              (applyOp s (.addChatMessage rid msg au bid i ts)).contributions =
                s.contributions := by
            simp [applyOp, addChatMessageState, hf]
          have hsyn :
              (applyOp s (.addChatMessage rid msg au bid i ts)).syntheses =
                s.syntheses := by
            simp [applyOp, addChatMessageState, hf]
          have htodos :
              (applyOp s (.addChatMessage rid msg au bid i ts)).todos = s.todos := by
            simp [applyOp, addChatMessageState, hf]
          have hrc :
              (applyOp s (.addChatMessage rid msg au bid i ts)).roleChats =
                setFirstChat s.roleChats rid
                  ⟨rc.roleId,
                   rc.messages ++ [{ id := i, author := au, content := msg, timestamp := ts }],
                   (match bid with | some b => some b | none => rc.lastBriefingId)⟩ := by
            cases bid <;> simp [applyOp, addChatMessageState, hf]
          refine ⟨fun c hc => by rw [hcontrib]; exact hc,
                  fun s0 hs => by rw [hsyn]; exact hs,
                  fun _ => htodos, ?_⟩
          intro _ m hm
          show ∃ c ∈ (applyOp s (.addChatMessage rid msg au bid i ts)).roleChats,
                 m ∈ c.messages
          rw [hrc]
          refine setFirstChat_preserves_msg s.roleChats rid rc _ hf ?_ m hm
          intro m' hm'
          exact List.mem_append_left _ hm'
      | none =>
          have h : applyOp s (.addChatMessage rid msg au bid i ts) =
              { s with roleChats := s.roleChats ++
                  [{ roleId := rid,
                     messages := [{ id := i, author := au, content := msg, timestamp := ts }],
                     lastBriefingId := bid }] } := by
            simp [applyOp, addChatMessageState, hf]
          rw [h]
          refine ⟨fun c hc => hc, fun s0 hs => hs, fun _ => rfl, ?_⟩
          intro _ m hm
          obtain ⟨c, hcmem, hcm⟩ := hm
          exact ⟨c, List.mem_append_left _ hcmem, hcm⟩
  | updateRoles rs =>
      exact ⟨fun c hc => hc, fun s0 hs => hs, fun _ => rfl, fun _ m hm => hm⟩
  | updateGoal g =>
      exact ⟨fun c hc => hc, fun s0 hs => hs, fun _ => rfl, fun _ m hm => hm⟩
  | clearRoleChat rid =>
      exact ⟨fun c hc => hc, fun s0 hs => hs, fun _ => rfl,
             fun hne => (hne rid rfl).elim⟩

/-- Witness for the amended C3: a chat message survives `updateGoal`. -/
theorem op_preserves_artifacts_witness :
    msgInState { id := "m1", author := .user, content := "hi", timestamp := "t" }
      (applyOp
        { getInitialState with roleChats :=
            [{ roleId := "1",
               messages := [{ id := "m1", author := .user, content := "hi", timestamp := "t" }],
               lastBriefingId := none }] }
        (.updateGoal "new goal")) :=
  (op_preserves_artifacts
      { getInitialState with roleChats :=
          [{ roleId := "1",
             messages := [{ id := "m1", author := .user, content := "hi", timestamp := "t" }],
             lastBriefingId := none }] }
      (.updateGoal "new goal")).2.2.2
    (fun rid h => Op.noConfusion h)
    { id := "m1", author := .user, content := "hi", timestamp := "t" }
    ⟨{ roleId := "1",
       messages := [{ id := "m1", author := .user, content := "hi", timestamp := "t" }],
       lastBriefingId := none }, by simp, by simp⟩

/-- When no fetch from `a` on passes the completion check, the loop ends
in the silent timeout. -/
theorem poll_timedOut_of_none (t : String) (f : Nat → Option AppState) (a : Nat)
    (h : ∀ i, a ≤ i → i < maxAttempts → (f i).bind (pollCheck t) = none) :
    poll t f a = .timedOut := by
  unfold poll
  by_cases ha : maxAttempts ≤ a
  · rw [dif_pos ha]
  · have hna : (f a).bind (pollCheck t) = none :=
      h a (Nat.le_refl a) (Nat.lt_of_not_le ha)
    rw [dif_neg ha, hna]
    exact poll_timedOut_of_none t f (a + 1) (fun i h1 h2 => h i (by omega) h2)
  termination_by maxAttempts - a
  decreasing_by simp_wf; omega

/-- The loop stops at the first in-bound fetch passing the completion
check, returning the artifacts observed there. -/
theorem poll_completed_first (t : String) (f : Nat → Option AppState) (a i : Nat)
    (syn : Synthesis) (ts : List TodoItem)
    (hai : a ≤ i) (hi : i < maxAttempts)
    (hnone : ∀ j, a ≤ j → j < i → (f j).bind (pollCheck t) = none)
    (hsome : (f i).bind (pollCheck t) = some (syn, ts)) :
    poll t f a = .completed syn ts := by
  unfold poll
  have ha : ¬ maxAttempts ≤ a := by omega
  rw [dif_neg ha]
  by_cases hia : a = i
  · subst hia
    rw [hsome]
  · have h1 : (f a).bind (pollCheck t) = none :=
      hnone a (Nat.le_refl a) (by omega)
    rw [h1]
    exact poll_completed_first t f (a + 1) i syn ts (by omega) hi
      (fun j hj1 hj2 => hnone j (by omega) hj2) hsome
  termination_by maxAttempts - a
  decreasing_by simp_wf; omega

/-- The loop's outcome depends only on the fetches within the attempt
bound. -/
theorem poll_congr (t : String) (f g : Nat → Option AppState) (a : Nat)
    (h : ∀ i, a ≤ i → i < maxAttempts → f i = g i) :
    poll t f a = poll t g a := by
  unfold poll
  by_cases ha : maxAttempts ≤ a
  · rw [dif_pos ha, dif_pos ha]
  · rw [dif_neg ha, dif_neg ha, h a (Nat.le_refl a) (Nat.lt_of_not_le ha)]
    cases hg : (g a).bind (pollCheck t) with
    | some r => rfl
    | none => exact poll_congr t f g (a + 1) (fun i h1 h2 => h i (by omega) h2)
  termination_by maxAttempts - a
  decreasing_by simp_wf; omega

/-- C6: the poller started after `POST /api/synthesize` runs on a fixed
3000 ms interval for at most 20 attempts; it stops with the artifacts as
soon as the target synthesis id appears together with a non-empty todos
entry for it; when all 20 in-bound fetches fail the check it stops in
the silent timeout outcome; and the outcome never depends on anything
past the attempt bound, so the loop terminates within it. -/
theorem pollForCompletion_spec (targetSynthesisId : String)
    (fetches : Nat → Option AppState) :
    ((∀ i, i < maxAttempts →
        (fetches i).bind (pollCheck targetSynthesisId) = none) →
      pollForCompletion targetSynthesisId fetches = .timedOut) ∧
    (∀ i syn ts, i < maxAttempts →
      (∀ j, j < i → (fetches j).bind (pollCheck targetSynthesisId) = none) →
      (fetches i).bind (pollCheck targetSynthesisId) = some (syn, ts) →
      pollForCompletion targetSynthesisId fetches = .completed syn ts) ∧
    (∀ st syn ts, pollCheck targetSynthesisId st = some (syn, ts) ↔
      (st.syntheses.find? (fun s => s.id == targetSynthesisId) = some syn ∧
       todosGet st.todos targetSynthesisId = some ts ∧ ts ≠ [])) ∧
    (∀ fetches2, (∀ i, i < maxAttempts → fetches i = fetches2 i) →
      pollForCompletion targetSynthesisId fetches =
        pollForCompletion targetSynthesisId fetches2) ∧
    maxAttempts = 20 ∧ pollIntervalMs = 3000 := by
  refine ⟨?_, ?_, ?_, ?_, rfl, rfl⟩
  · intro h
    exact poll_timedOut_of_none targetSynthesisId fetches 0
      (fun i _ hi => h i hi)
  · intro i syn ts hi hnone hsome
    exact poll_completed_first targetSynthesisId fetches 0 i syn ts
      (Nat.zero_le i) hi (fun j _ hj => hnone j hj) hsome
  · intro st syn ts
    constructor
    · intro h
      cases hfind : st.syntheses.find? (fun s => s.id == targetSynthesisId) with
      | none => simp [pollCheck, hfind] at h
      | some syn0 =>
          cases hget : todosGet st.todos targetSynthesisId with
          | none => simp [pollCheck, hfind, hget] at h
          | some ts0 =>
              simp only [pollCheck, hfind, hget] at h
              by_cases hlen : 0 < ts0.length
              · rw [if_pos hlen] at h
                have h' := Option.some.inj h
                have hs : syn0 = syn := congrArg Prod.fst h'
                have ht : ts0 = ts := congrArg Prod.snd h'
                subst hs; subst ht
                exact ⟨rfl, rfl, List.ne_nil_of_length_pos hlen⟩
              · rw [if_neg hlen] at h
                exact Option.noConfusion h
    · rintro ⟨h1, h2, h3⟩
      simp only [pollCheck, h1, h2]
      rw [if_pos (List.length_pos.mpr h3)]
  · intro fetches2 h
    exact poll_congr targetSynthesisId fetches fetches2 0 (fun i _ hi => h i hi)

/-- Witness for C6: with every fetch failing, the poller times out
silently. -/
theorem pollForCompletion_spec_witness :
    pollForCompletion "syn1" (fun _ => none) = .timedOut :=
  (pollForCompletion_spec "syn1" (fun _ => none)).1 (fun _ _ => rfl)

/-- C10: a `POST /api/chat` body carrying `forgeId`, `roleId` and
`message` but omitting `isQuestion` is processed with `isQuestion =
false`: the route forwards `is_question: false` to the AI service and
echoes `isQuestion: false` in its success response. -/
theorem chatPOST_default_isQuestion (f r m : String)
    (service : ChatForwardBody → AIChatResponse)
    (hf : f ≠ "") (hr : r ≠ "") (hm : m ≠ "") :
    (chatPOST { forgeId := some f, roleId := some r, message := some m,
                isQuestion := none } service).1 =
      some { forge_id := f, role_id := r, message := m, is_question := false } ∧
    (∀ resp,
      (chatPOST { forgeId := some f, roleId := some r, message := some m,
                  isQuestion := none } service).2 = .ok resp →
      resp.isQuestion = false) := by
  have h1 : (f == "") = false := beq_eq_false_iff_ne.mpr hf
  have h2 : (r == "") = false := beq_eq_false_iff_ne.mpr hr
  have h3 : (m == "") = false := beq_eq_false_iff_ne.mpr hm
  by_cases hok :
      (service { forge_id := f, role_id := r, message := m,
                 is_question := false }).ok = true
  · constructor
    · simp [chatPOST, truthyStr, h1, h2, h3, hok]
    · intro resp hresp
      simp [chatPOST, truthyStr, h1, h2, h3, hok] at hresp
      rw [← hresp]
  · constructor
    · simp [chatPOST, truthyStr, h1, h2, h3, hok]
    · intro resp hresp
      simp [chatPOST, truthyStr, h1, h2, h3, hok] at hresp

/-- Witness for C10 with a concrete body and an always-succeeding AI
service. -/
theorem chatPOST_default_isQuestion_witness :
    (chatPOST { forgeId := some "a", roleId := some "b", message := some "c",
                isQuestion := none }
        (fun _ => { ok := true, status := 200, message := "ok",
                    ai_response := "resp" })).1 =
      some { forge_id := "a", role_id := "b", message := "c",
             is_question := false } :=
  (chatPOST_default_isQuestion "a" "b" "c"
      (fun _ => { ok := true, status := 200, message := "ok", ai_response := "resp" })
      (by decide) (by decide) (by decide)).1

end Forge
